import Mathlib

/-!
Verification of the identifier-resolution layer of `twitchctl` (`src/api.rs`),
as a shallow embedding in Lean 4. Remote fetches are modelled as explicit
function parameters (capabilities); the algorithmic layer over the fetched
data is translated function by function from the source.
-/

set_option autoImplicit false

namespace Twitchctl

/-! ## Tag data model (`TwitchTag` from `twitch_api2`, as used by `api.rs`) -/

/-- A stream tag: canonical id, localized display names (a map modelled as an
association list with first-key-wins lookup), and the auto-generated flag
(`is_auto = false` models `AutoGenerated::False`). -/
structure TwitchTag where
  id : String
  localization_names : List (String × String)
  is_auto : Bool
  deriving Repr, DecidableEq

/-- Lookup in the localization map, modelling `HashMap::get`. -/
def getLoc (m : List (String × String)) (k : String) : Option String :=
  (m.find? (fun p => p.1 == k)).map (fun p => p.2)

/-- Rust `str::eq_ignore_ascii_case`: equality after ASCII-lowercasing each
character (`Char.toLower` lowercases exactly the ASCII uppercase range). -/
def eqIgnoreAsciiCase (a b : String) : Bool :=
  a.data.map Char.toLower == b.data.map Char.toLower

/-- The inner `for tag_obj in all_tags.iter()` loop of `get_tag_ids_matching`
(src/api.rs:179-204): scan the catalog in order; on each tag, match on the
pair of optional lookups for the requested locale and for `"en-us"`, with the
two guarded arms of the Rust `match` and the `_ => {}` fallthrough. -/
def find_tag_id (all_tags : List TwitchTag) (locale : String) (tag : String) : Option String :=
  match all_tags with
  | [] => none
  | tag_obj :: rest =>
    match getLoc tag_obj.localization_names locale,
          getLoc tag_obj.localization_names "en-us" with
    | some loc_name, _ =>
      if eqIgnoreAsciiCase loc_name tag && (tag_obj.is_auto == false) then
        some tag_obj.id
      else
        find_tag_id rest locale tag
    | none, some en_name =>
      if eqIgnoreAsciiCase en_name tag && (tag_obj.is_auto == false) then
        some tag_obj.id
      else
        find_tag_id rest locale tag
    | none, none => find_tag_id rest locale tag

/-- `get_tag_ids_matching` (src/api.rs:169-208) after the catalog has been
fetched: `tags.iter().filter_map(|tag| ...).collect()`. -/
def get_tag_ids_matching (all_tags : List TwitchTag) (tags : List String)
    (locale : String) : List String :=
  tags.filterMap (fun tag => find_tag_id all_tags locale tag)

/-! Spec-side tier predicates (§4.2 of the spec), used to state the matching
claims and compare them with the code's scan. -/

/-- Spec tier 1: not auto-generated and the requested-locale display name
case-insensitively equals the requested name. -/
def tier1 (t : TwitchTag) (locale tag : String) : Bool :=
  match getLoc t.localization_names locale with
  | some loc_name => eqIgnoreAsciiCase loc_name tag && (t.is_auto == false)
  | none => false

/-- The fallback arm as the code implements it: the tag has no entry for the
requested locale, and its `"en-us"` display name matches. -/
def tier2 (t : TwitchTag) (locale tag : String) : Bool :=
  match getLoc t.localization_names locale,
        getLoc t.localization_names "en-us" with
  | none, some en_name => eqIgnoreAsciiCase en_name tag && (t.is_auto == false)
  | _, _ => false

theorem find_tag_id_cons (t : TwitchTag) (rest : List TwitchTag) (locale tag : String) :
    find_tag_id (t :: rest) locale tag =
      if tier1 t locale tag || tier2 t locale tag then some t.id
      else find_tag_id rest locale tag := by
  rcases hl : getLoc t.localization_names locale with _ | loc
  · rcases he : getLoc t.localization_names "en-us" with _ | en
    · simp [find_tag_id, tier1, tier2, hl, he]
    · by_cases hm : (eqIgnoreAsciiCase en tag && (t.is_auto == false)) = true <;>
        simp [find_tag_id, tier1, tier2, hl, he, hm]
  · by_cases hm : (eqIgnoreAsciiCase loc tag && (t.is_auto == false)) = true <;>
      simp [find_tag_id, tier1, tier2, hl, hm]

theorem find_tag_id_mem_auto_false {all_tags : List TwitchTag} {locale tag id : String}
    (h : find_tag_id all_tags locale tag = some id) :
    ∃ t ∈ all_tags, t.is_auto = false ∧ t.id = id := by
  induction all_tags with
  | nil => simp [find_tag_id] at h
  | cons t rest ih =>
    rw [find_tag_id_cons] at h
    by_cases hm : (tier1 t locale tag || tier2 t locale tag) = true
    · rw [if_pos hm] at h
      refine ⟨t, List.mem_cons_self _ _, ?_, by injection h⟩
      rcases Bool.or_eq_true_iff.mp hm with h1 | h2
      · rcases hl : getLoc t.localization_names locale with _ | loc <;>
          simp [tier1, hl] at h1
        exact h1.2
      · rcases hl : getLoc t.localization_names locale with _ | loc <;>
          [skip; simp [tier2, hl] at h2]
        rcases he : getLoc t.localization_names "en-us" with _ | en <;>
          simp [tier2, hl, he] at h2
        exact h2.2
    · rw [if_neg hm] at h
      obtain ⟨u, hu, hauto, hid⟩ := ih h
      exact ⟨u, List.mem_cons_of_mem _ hu, hauto, hid⟩

theorem find_tag_id_isSome_of_mem {all_tags : List TwitchTag} {locale tag : String}
    {t : TwitchTag} (hmem : t ∈ all_tags)
    (hm : (tier1 t locale tag || tier2 t locale tag) = true) :
    ∃ id, find_tag_id all_tags locale tag = some id := by
  induction all_tags with
  | nil => cases hmem
  | cons u rest ih =>
    rw [find_tag_id_cons]
    by_cases hu : (tier1 u locale tag || tier2 u locale tag) = true
    · rw [if_pos hu]; exact ⟨u.id, rfl⟩
    · rw [if_neg hu]
      rcases List.mem_cons.mp hmem with rfl | hmem'
      · exact absurd hm hu
      · exact ih hmem'

/-- C1 (counterexample). A catalog whose sole tag is not auto-generated, has a
`"de-de"` entry `"Bar"` failing to match the requested name `"Foo"`, and an
`"en-us"` entry equal to `"Foo"`: the claim says the tag is selected via the
English fallback, but the code's fallback arm requires the requested-locale
entry to be absent, so no match is produced. -/
theorem c1_fallback_cex :
    getLoc [("de-de", "Bar"), ("en-us", "Foo")] "en-us" = some "Foo"
    ∧ eqIgnoreAsciiCase "Foo" "Foo" = true
    ∧ eqIgnoreAsciiCase "Bar" "Foo" = false
    ∧ (⟨"t1", [("de-de", "Bar"), ("en-us", "Foo")], false⟩ : TwitchTag).is_auto = false
    ∧ get_tag_ids_matching [⟨"t1", [("de-de", "Bar"), ("en-us", "Foo")], false⟩]
        ["Foo"] "de-de" = [] := by
  decide

/-- C1 (amended). A tag that is not auto-generated, has NO display-name entry
for the requested locale, and whose `"en-us"` display name case-insensitively
equals the requested name, causes `get_tag_ids_matching` to select a match for
that name (some tag's ID is produced). -/
theorem c1_fallback_amended (all_tags : List TwitchTag) (locale tag : String)
    (t : TwitchTag) (hmem : t ∈ all_tags)
    (hloc : getLoc t.localization_names locale = none)
    (hen : ∃ en, getLoc t.localization_names "en-us" = some en
      ∧ eqIgnoreAsciiCase en tag = true)
    (hauto : t.is_auto = false) :
    ∃ id, find_tag_id all_tags locale tag = some id
      ∧ get_tag_ids_matching all_tags [tag] locale = [id] := by
  obtain ⟨en, hget, hci⟩ := hen
  have ht2 : tier2 t locale tag = true := by
    simp [tier2, hloc, hget, hci, hauto]
  have hor : (tier1 t locale tag || tier2 t locale tag) = true := by simp [ht2]
  obtain ⟨id, hid⟩ := find_tag_id_isSome_of_mem hmem hor
  exact ⟨id, hid, by simp [get_tag_ids_matching, hid]⟩

theorem c1_fallback_amended_witness :
    ∃ id, find_tag_id [⟨"t1", [("en-us", "Foo")], false⟩] "de-de" "foo" = some id
      ∧ get_tag_ids_matching [⟨"t1", [("en-us", "Foo")], false⟩] ["foo"] "de-de" = [id] :=
  c1_fallback_amended _ _ _ _ (List.mem_singleton.mpr rfl) (by decide)
    ⟨"Foo", by decide, by decide⟩ (by decide)

/-- C2 (counterexample). Catalog order `[tA, tB]` where `tA` matches only via
the English fallback and `tB` is a requested-locale (tier-1) match: the code
returns `tA`'s ID `"A"`, not the requested-locale match's ID `"B"`, so a
tier-1 match is NOT always selected over an English-fallback candidate. -/
theorem c2_priority_cex :
    tier1 (⟨"B", [("de-de", "Foo")], false⟩ : TwitchTag) "de-de" "Foo" = true
    ∧ tier1 (⟨"A", [("en-us", "Foo")], false⟩ : TwitchTag) "de-de" "Foo" = false
    ∧ tier2 (⟨"A", [("en-us", "Foo")], false⟩ : TwitchTag) "de-de" "Foo" = true
    ∧ get_tag_ids_matching
        [⟨"A", [("en-us", "Foo")], false⟩, ⟨"B", [("de-de", "Foo")], false⟩]
        ["Foo"] "de-de" = ["A"] := by
  decide

/-- C2 (amended). The scan selects the first tag in catalog order satisfying
either the requested-locale condition or the English-fallback condition; a
requested-locale match is therefore returned when no tag before it in catalog
order matches under either condition. -/
theorem c2_priority_amended (l1 l2 : List TwitchTag) (t : TwitchTag)
    (locale tag : String)
    (h1 : ∀ u ∈ l1, (tier1 u locale tag || tier2 u locale tag) = false)
    (ht : tier1 t locale tag = true) :
    find_tag_id (l1 ++ t :: l2) locale tag = some t.id
      ∧ get_tag_ids_matching (l1 ++ t :: l2) [tag] locale = [t.id] := by
  have hfind : find_tag_id (l1 ++ t :: l2) locale tag = some t.id := by
    induction l1 with
    | nil => simp [find_tag_id_cons, ht]
    | cons u l1' ih =>
      rw [List.cons_append, find_tag_id_cons, if_neg]
      · exact ih (fun v hv => h1 v (List.mem_cons_of_mem _ hv))
      · simp [h1 u (List.mem_cons_self _ _)]
  exact ⟨hfind, by simp [get_tag_ids_matching, hfind]⟩

theorem c2_priority_amended_witness :
    find_tag_id [⟨"A", [("en-us", "Bar")], false⟩, ⟨"B", [("de-de", "Foo")], false⟩]
      "de-de" "Foo" = some "B"
    ∧ get_tag_ids_matching
        [⟨"A", [("en-us", "Bar")], false⟩, ⟨"B", [("de-de", "Foo")], false⟩]
        ["Foo"] "de-de" = ["B"] :=
  c2_priority_amended [⟨"A", [("en-us", "Bar")], false⟩] [] _ "de-de" "Foo"
    (by decide) (by decide)

/-- C4. Every ID returned by `get_tag_ids_matching` is the ID of a catalog tag
that is not auto-generated: auto-generated tags are never matched, whatever
their display names. -/
theorem c4_no_auto_generated (all_tags : List TwitchTag) (tags : List String)
    (locale : String) (id : String)
    (h : id ∈ get_tag_ids_matching all_tags tags locale) :
    ∃ t ∈ all_tags, t.is_auto = false ∧ t.id = id := by
  unfold get_tag_ids_matching at h
  obtain ⟨tag, _, hfind⟩ := List.mem_filterMap.mp h
  exact find_tag_id_mem_auto_false hfind

theorem c4_no_auto_generated_witness :
    ∃ t ∈ [(⟨"A", [("en-us", "Foo")], true⟩ : TwitchTag),
           ⟨"B", [("en-us", "Foo")], false⟩],
      t.is_auto = false ∧ t.id = "B" :=
  c4_no_auto_generated
    [⟨"A", [("en-us", "Foo")], true⟩, ⟨"B", [("en-us", "Foo")], false⟩]
    ["foo"] "en-us" "B" (by decide)

/-- C7. The output of `get_tag_ids_matching` is exactly the input name list
mapped through per-name resolution in input order with unmatched names
(`none` results) omitted; consequently the output length never exceeds the
input length, unmatched names contribute nothing and raise no error, and
duplicate input names are each resolved independently by the same per-name
function. -/
theorem c7_output_shape (all_tags : List TwitchTag) (tags : List String)
    (locale : String) :
    get_tag_ids_matching all_tags tags locale
        = (tags.map (fun tag => find_tag_id all_tags locale tag)).reduceOption
    ∧ (get_tag_ids_matching all_tags tags locale).length ≤ tags.length := by
  constructor
  · simp [get_tag_ids_matching, List.reduceOption, List.filterMap_map]
  · exact List.length_filterMap_le _ _

/-! ## Pagination (`get_all_tags`, src/api.rs:151-167) -/

/-- The `loop { ... }` of `get_all_tags`: fetch a page with the current cursor
(`after(pagination)`, starting from `None`), append its items to the
accumulator, take the returned cursor, and break when it is `None`. The Rust
loop is unbounded; `fuel` makes the recursion structural, and the theorems
show that any `fuel` at least the provider's page count yields the loop's
result (i.e. the loop terminates against an honest provider). The result also
carries the number of page fetches issued. -/
def get_all_tags_loop {α : Type} (fetch : Option Nat → List α × Option Nat) :
    Nat → Option Nat → List α → Nat → Option (List α × Nat)
  | 0, _, _, _ => none
  | fuel + 1, cursor, acc, calls =>
    match fetch cursor with
    | (data, some next) =>
      get_all_tags_loop fetch fuel (some next) (acc ++ data) (calls + 1)
    | (data, none) => some (acc ++ data, calls + 1)

/-- `get_all_tags` against an abstract page provider: start with an empty
accumulator, no cursor, and zero fetches. -/
def get_all_tags {α : Type} (fetch : Option Nat → List α × Option Nat)
    (fuel : Nat) : Option (List α × Nat) :=
  get_all_tags_loop fetch fuel none [] 0

/-- A cursor-paginated provider built from a fixed page list: cursors are page
indices, the first request (cursor `none`) serves page 0, and the final page
carries no next cursor. -/
def fetchPage {α : Type} (pages : List (List α)) (cursor : Option Nat) :
    List α × Option Nat :=
  let i := cursor.getD 0
  (pages.getD i [], if i + 1 < pages.length then some (i + 1) else none)

theorem get_all_tags_loop_spec {α : Type} (pages : List (List α)) :
    ∀ (fuel i : Nat) (acc : List α) (calls : Nat),
      i < pages.length → pages.length - i ≤ fuel →
      get_all_tags_loop (fetchPage pages) fuel (some i) acc calls
        = some (acc ++ (pages.drop i).flatten, calls + (pages.length - i)) := by
  intro fuel
  induction fuel with
  | zero => intro i acc calls hi hf; omega
  | succ fuel ih =>
    intro i acc calls hi hf
    have hdrop : pages.drop i = pages.getD i [] :: pages.drop (i + 1) := by
      rw [List.getD_eq_getElem _ _ hi]
      exact List.drop_eq_getElem_cons hi
    by_cases hnext : i + 1 < pages.length
    · have hfetch : fetchPage pages (some i) = (pages.getD i [], some (i + 1)) := by
        simp [fetchPage, hnext]
      rw [get_all_tags_loop, hfetch]
      dsimp only
      rw [ih (i + 1) (acc ++ pages.getD i []) (calls + 1) hnext (by omega)]
      simp only [Option.some.injEq, Prod.mk.injEq]
      constructor
      · rw [hdrop, List.flatten_cons, List.append_assoc]
      · omega
    · have hfetch : fetchPage pages (some i) = (pages.getD i [], none) := by
        simp [fetchPage, hnext]
      rw [get_all_tags_loop, hfetch]
      dsimp only
      have hdrop2 : pages.drop (i + 1) = [] :=
        List.drop_eq_nil_of_le (by omega)
      simp only [Option.some.injEq, Prod.mk.injEq]
      constructor
      · rw [hdrop, hdrop2]
        simp
      · omega

theorem get_all_tags_start {α : Type} (pages : List (List α)) (fuel : Nat) :
    get_all_tags (fetchPage pages) (fuel + 1)
      = get_all_tags_loop (fetchPage pages) (fuel + 1) (some 0) [] 0 := rfl

theorem flatten_length_of_pages_100 {α : Type} (init : List (List α))
    (h : ∀ p ∈ init, p.length = 100) :
    init.flatten.length = 100 * init.length := by
  induction init with
  | nil => simp
  | cons p ps ih =>
    rw [List.forall_mem_cons] at h
    simp [List.flatten_cons, h.1, ih h.2]
    ring

/-- C3 (counterexample). The provider for an empty catalog is a single empty
final page; the loop still issues one fetch call (the first request is made
before any cursor can be inspected), whereas the claim requires
`ceil(0/100) = 0` calls for a 0-item catalog. -/
theorem c3_pagination_cex :
    get_all_tags (fetchPage ([[]] : List (List Nat))) 1 = some ([], 1)
      ∧ ((0 + 99) / 100 : Nat) = 0 ∧ (1 : Nat) ≠ 0 := by
  decide

/-- C3 (amended). Against a provider whose pages are all of size 100 except a
final page of at most 100 items (empty only when it is the sole page), the
loop terminates for any fuel at least the page count, accumulates exactly the
concatenation of all pages in fetch order, and issues
`max 1 (ceil (totalItems / 100))` fetch calls — so a 0-item catalog costs 1
call, not 0. -/
theorem c3_pagination_amended {α : Type} (init : List (List α)) (last : List α)
    (fuel : Nat)
    (hinit : ∀ p ∈ init, p.length = 100)
    (hlast : last.length ≤ 100)
    (hne : init ≠ [] → last ≠ [])
    (hfuel : (init ++ [last]).length ≤ fuel) :
    get_all_tags (fetchPage (init ++ [last])) fuel
        = some ((init ++ [last]).flatten, (init ++ [last]).length)
      ∧ (init ++ [last]).length
        = max 1 (((init ++ [last]).flatten.length + 99) / 100) := by
  have hlen : (init ++ [last]).length = init.length + 1 := by simp
  constructor
  · obtain ⟨f, rfl⟩ : ∃ f, fuel = f + 1 := ⟨fuel - 1, by omega⟩
    rw [get_all_tags_start,
      get_all_tags_loop_spec (init ++ [last]) (f + 1) 0 [] 0 (by omega) (by omega)]
    simp
  · have hjoin : (init ++ [last]).flatten.length = 100 * init.length + last.length := by
      rw [List.flatten_append]
      simp [flatten_length_of_pages_100 init hinit]
    rw [hjoin, hlen]
    rcases List.eq_nil_or_concat init with rfl | ⟨_, _, rfl⟩
    · simp
      omega
    · have hl : last ≠ [] := hne (by simp)
      have hl1 : 1 ≤ last.length := by
        cases hll : last with
        | nil => exact absurd hll hl
        | cons a l => simp
      omega

theorem c3_pagination_amended_witness :
    get_all_tags (fetchPage (([] : List (List Nat)) ++ [[5]])) 1
        = some ((([] : List (List Nat)) ++ [[5]]).flatten,
                (([] : List (List Nat)) ++ [[5]]).length)
      ∧ (([] : List (List Nat)) ++ [[5]]).length
        = max 1 (((([] : List (List Nat)) ++ [[5]]).flatten.length + 99) / 100) :=
  c3_pagination_amended [] [5] 1 (by simp) (by decide)
    (by intro h; exact absurd rfl h) (by decide)

/-! ## Reward resolution (`find_reward`, src/api.rs:281-312) -/

/-- A channel-point reward as used by `find_reward`: canonical id and title. -/
structure CustomReward where
  id : String
  title : String
  deriving Repr, DecidableEq

/-- Rust `str::to_lowercase` as exercised on titles and queries: lowercase
character by character (`Char.toLower` lowercases the ASCII uppercase
range). -/
def to_lowercase (s : String) : String := ⟨s.data.map Char.toLower⟩

/-- `find_reward` after the reward catalog has been fetched. The fuzzy
capability is a parameter: `newMatcher q s` models
`FuzzyFilter::new(&q).matches(&s)`. Tier 1 is `rewards.iter().find(|r|
r.title == query)`; tier 2 filters on lowercased-title equality and resolves
only on exactly one candidate (`rewards_ic[0]` rendered as `head?` under the
length-1 check); tier 3 filters on the matcher over lowercased titles and
resolves only when the iterator yields a first element and no second one,
i.e. exactly one candidate. -/
def find_reward (newMatcher : String → String → Bool)
    (rewards : List CustomReward) (query : String) : Option CustomReward :=
  match rewards.find? (fun r => r.title == query) with
  | some reward => some reward
  | none =>
    let q := to_lowercase query
    let rewards_ic := rewards.filter (fun r => to_lowercase r.title == q)
    if rewards_ic.length = 1 then
      rewards_ic.head?
    else
      let fz := rewards.filter (fun r => newMatcher q (to_lowercase r.title))
      if fz.length = 1 then fz.head? else none

/-- C6. When the catalog contains an exact (case-sensitive) title match, the
first one in catalog order is returned, for every fuzzy matcher and with no
ambiguity check against later exact matches. -/
theorem c6_exact_tier (newMatcher : String → String → Bool)
    (l1 l2 : List CustomReward) (r : CustomReward) (query : String)
    (h1 : ∀ x ∈ l1, x.title ≠ query) (h2 : r.title = query) :
    find_reward newMatcher (l1 ++ r :: l2) query = some r := by
  have hfind : (l1 ++ r :: l2).find? (fun x => x.title == query) = some r := by
    induction l1 with
    | nil =>
      rw [List.nil_append]
      exact List.find?_cons_of_pos _ (by simp [h2])
    | cons x l1' ih =>
      rw [List.cons_append, List.find?_cons_of_neg]
      · exact ih (fun y hy => h1 y (List.mem_cons_of_mem _ hy))
      · simp [h1 x (List.mem_cons_self _ _)]
  simp [find_reward, hfind]

theorem c6_exact_tier_witness :
    find_reward (fun _ _ => true)
      ([⟨"1", "bar"⟩] ++ (⟨"2", "Foo"⟩ : CustomReward) :: [⟨"3", "Foo"⟩])
      "Foo" = some ⟨"2", "Foo"⟩ :=
  c6_exact_tier (fun _ _ => true) [⟨"1", "bar"⟩] [⟨"3", "Foo"⟩] ⟨"2", "Foo"⟩
    "Foo" (by decide) rfl

/-- C5. When no reward title is a case-sensitive exact match: a unique
case-insensitive candidate is returned; with zero or several case-insensitive
candidates, resolution falls to the fuzzy tier, which returns a unique fuzzy
candidate and otherwise `none`. -/
theorem c5_lower_tiers (newMatcher : String → String → Bool)
    (rewards : List CustomReward) (query : String)
    (hexact : ∀ r ∈ rewards, r.title ≠ query) :
    (∀ r, rewards.filter (fun x => to_lowercase x.title == to_lowercase query) = [r] →
        find_reward newMatcher rewards query = some r)
    ∧ ((rewards.filter (fun x => to_lowercase x.title == to_lowercase query)).length ≠ 1 →
        (∀ r, rewards.filter (fun x => newMatcher (to_lowercase query) (to_lowercase x.title)) = [r] →
            find_reward newMatcher rewards query = some r)
        ∧ ((rewards.filter (fun x => newMatcher (to_lowercase query) (to_lowercase x.title))).length ≠ 1 →
            find_reward newMatcher rewards query = none)) := by
  have hnone : rewards.find? (fun r => r.title == query) = none :=
    List.find?_eq_none.mpr (fun x hx => by simp [hexact x hx])
  refine ⟨?_, fun hne => ⟨?_, fun hfz => ?_⟩⟩
  · intro r hr
    simp [find_reward, hnone, hr]
  · intro r hr
    simp [find_reward, hnone, hne, hr]
  · simp [find_reward, hnone, hne, hfz]

theorem c5_lower_tiers_witness :
    find_reward (fun _ _ => false) [⟨"1", "FOO"⟩] "foo" = some ⟨"1", "FOO"⟩ :=
  (c5_lower_tiers (fun _ _ => false) [⟨"1", "FOO"⟩] "foo" (by decide)).1
    ⟨"1", "FOO"⟩ (by decide)

/-! ## Broadcaster resolution (src/api.rs:37-41, 209-229, 332-348) -/

inductive UserIdent where
  | UserName (name : String)
  | UserId (id : String)
  | None
  deriving Repr, DecidableEq

/-- A user account as returned by the user lookup. -/
structure User where
  id : String
  login : String
  deriving Repr, DecidableEq

inductive ApiError where
  | NoUser (name : String)
  deriving Repr, DecidableEq

/-- `Box<dyn Error>` as it occurs in `get_broadcaster_id`: either this
crate's `ApiError` or an error propagated verbatim from the lookup. -/
inductive BoxedError (ε : Type) where
  | api (e : ApiError)
  | transport (e : ε)
  deriving DecidableEq

/-- `get_broadcaster_id` (src/api.rs:209-229). The user lookup
`self.get_users(&[name], &[])` is a capability parameter; the
`if userlist.is_empty() { Err(NoUser) } else { Ok(userlist[0].id) }` body is
rendered as the equivalent list match. -/
def get_broadcaster_id {ε : Type} (self_user_id : String)
    (get_users : String → Except ε (List User))
    (broadcaster_ident : UserIdent) : Except (BoxedError ε) String :=
  match broadcaster_ident with
  | .None => .ok self_user_id
  | .UserId broadcaster_id => .ok broadcaster_id
  | .UserName broadcaster_name =>
    match get_users broadcaster_name with
    | .ok userlist =>
      match userlist with
      | [] => .error (.api (.NoUser broadcaster_name))
      | user :: _ => .ok user.id
    | .error e => .error (.transport e)

/-- C8. Login resolution fails with `NoUser(name)` exactly when the lookup
succeeds with an empty list; a non-empty result yields the first user's ID;
a lookup failure is propagated verbatim as a transport error. -/
theorem c8_by_login {ε : Type} (self_user_id : String)
    (get_users : String → Except ε (List User)) (name : String) :
    (get_broadcaster_id self_user_id get_users (.UserName name)
        = .error (.api (.NoUser name)) ↔ get_users name = .ok [])
    ∧ (∀ u rest, get_users name = .ok (u :: rest) →
        get_broadcaster_id self_user_id get_users (.UserName name) = .ok u.id)
    ∧ (∀ e, get_users name = .error e →
        get_broadcaster_id self_user_id get_users (.UserName name)
          = .error (.transport e)) := by
  rcases hg : get_users name with e | l
  · simp [get_broadcaster_id, hg]
  · cases l with
    | nil => simp [get_broadcaster_id, hg]
    | cons u rest => simp [get_broadcaster_id, hg]

theorem c8_by_login_witness :
    get_broadcaster_id "self" (fun _ => (Except.ok [] : Except Unit (List User)))
      (UserIdent.UserName "ghost")
      = Except.error (BoxedError.api (ApiError.NoUser "ghost")) :=
  (c8_by_login "self" (fun _ => (Except.ok [] : Except Unit (List User)))
      "ghost").1.mpr rfl

/-- Outcome of `get_broadcaster_id_or_die`: `exit!(1, "{}", e)` is modelled
as a `died` result carrying the error. -/
inductive OrDie (ε : Type) where
  | ok (id : String)
  | died (e : BoxedError ε)
  deriving DecidableEq

/-- `get_broadcaster_id_or_die` (src/api.rs:332-348): choose the
`UserIdent` by matching `(broadcaster, broadcaster_id)` with the explicit
ID arm first, then resolve and exit on error. -/
def get_broadcaster_id_or_die {ε : Type} (self_user_id : String)
    (get_users : String → Except ε (List User))
    (broadcaster : Option String) (broadcaster_id : Option String) : OrDie ε :=
  let r := match broadcaster, broadcaster_id with
    | _, some i => get_broadcaster_id self_user_id get_users (.UserId i)
    | some b, _ => get_broadcaster_id self_user_id get_users (.UserName b)
    | _, _ => get_broadcaster_id self_user_id get_users .None
  match r with
  | .ok id => .ok id
  | .error e => .died e

/-- C9. When both an explicit ID and a login name are supplied, the explicit
ID wins: the result is that ID directly, independent of the lookup capability
(so no user lookup is consulted); with only a login, resolution goes through
`UserIdent::UserName`; with neither, the caller's own account ID is used. -/
theorem c9_ident_precedence {ε : Type} (self_user_id : String)
    (get_users get_users2 : String → Except ε (List User)) (name id : String) :
    (get_broadcaster_id_or_die self_user_id get_users (some name) (some id)
        = .ok id)
    ∧ (get_broadcaster_id_or_die self_user_id get_users (some name) (some id)
        = get_broadcaster_id_or_die self_user_id get_users2 none (some id))
    ∧ (∀ i, get_broadcaster_id self_user_id get_users (.UserName name) = .ok i →
        get_broadcaster_id_or_die self_user_id get_users (some name) none = .ok i)
    ∧ (∀ e, get_broadcaster_id self_user_id get_users (.UserName name) = .error e →
        get_broadcaster_id_or_die self_user_id get_users (some name) none = .died e)
    ∧ (get_broadcaster_id_or_die self_user_id get_users none none
        = .ok self_user_id) := by
  refine ⟨rfl, rfl, ?_, ?_, rfl⟩
  · intro i h
    simp [get_broadcaster_id_or_die, h]
  · intro e h
    simp [get_broadcaster_id_or_die, h]

theorem c9_ident_precedence_witness :
    get_broadcaster_id_or_die "self"
      (fun _ => (Except.ok [⟨"u1", "bob"⟩] : Except Unit (List User)))
      (some "bob") none = OrDie.ok "u1" :=
  (c9_ident_precedence "self"
      (fun _ => (Except.ok [⟨"u1", "bob"⟩] : Except Unit (List User)))
      (fun _ => Except.ok []) "bob" "unused").2.2.1 "u1" rfl

/-! ## Category search (src/api.rs:83-107) -/

structure Category where
  id : String
  name : String
  deriving Repr, DecidableEq

/-- The `first` count sent to the remote: `max.max(1).min(100)`. -/
def clamp_first (max : Nat) : Nat := Nat.min (Nat.max max 1) 100

/-- `search_categories` (src/api.rs:83-101), with the remote request as a
capability taking the query term and the clamped `first` count: an empty
result list becomes `Ok(None)`, a non-empty one `Ok(Some(res))`. -/
def search_categories {ε : Type} (fetch : String → Nat → Except ε (List Category))
    (term : String) (max : Nat) : Except ε (Option (List Category)) :=
  match fetch term (clamp_first max) with
  | .error e => .error e
  | .ok res => if res.length > 0 then .ok (some res) else .ok none

/-- `search_category` (src/api.rs:102-107). The outer `Option` models the
`cs[0]` index: `none` is the out-of-bounds panic, `some` the function's
actual return value. -/
def search_category {ε : Type} (fetch : String → Nat → Except ε (List Category))
    (term : String) : Option (Except ε (Option Category)) :=
  match search_categories fetch term 1 with
  | .error e => some (.error e)
  | .ok none => some (.ok none)
  | .ok (some cs) =>
    match cs with
    | [] => none
    | c :: _ => some (.ok (some c))

theorem search_categories_some_ne_nil {ε : Type}
    (fetch : String → Nat → Except ε (List Category)) (term : String)
    (max : Nat) {l : List Category}
    (h : search_categories fetch term max = .ok (some l)) : l ≠ [] := by
  unfold search_categories at h
  rcases hf : fetch term (clamp_first max) with e | res <;> simp [hf] at h
  by_cases hr : res.length > 0
  · rw [if_pos hr] at h
    obtain ⟨rfl⟩ : l = res := by simpa using h.symm
    exact List.ne_nil_of_length_pos hr
  · rw [if_neg hr] at h
    simp at h

/-- C10. `search_categories` yields `Ok(None)` exactly when the remote
returns an empty list and `Ok(Some(l))` only for non-empty `l`, so the
`cs[0]` index in `search_category` never goes out of bounds; and the result
count sent to the remote is clamped into `1..=100`. -/
theorem c10_search_categories {ε : Type}
    (fetch : String → Nat → Except ε (List Category)) (term : String)
    (max : Nat) :
    (search_categories fetch term max = .ok none
        ↔ fetch term (clamp_first max) = .ok [])
    ∧ (∀ l, search_categories fetch term max = .ok (some l) → l ≠ [])
    ∧ search_category fetch term ≠ none
    ∧ 1 ≤ clamp_first max ∧ clamp_first max ≤ 100 := by
  refine ⟨?_, fun l h => search_categories_some_ne_nil fetch term max h, ?_, ?_, ?_⟩
  · constructor
    · intro h
      unfold search_categories at h
      rcases hf : fetch term (clamp_first max) with e | res <;> simp [hf] at h
      rw [h]
    · intro h
      simp [search_categories, h]
  · unfold search_category
    rcases hs : search_categories fetch term 1 with e | o
    · simp
    · rcases o with _ | cs
      · simp
      · have hne : cs ≠ [] := search_categories_some_ne_nil fetch term 1 hs
        cases cs with
        | nil => exact absurd rfl hne
        | cons c rest => simp
  · simp only [clamp_first, Nat.min_def, Nat.max_def]
    split_ifs <;> omega
  · simp only [clamp_first, Nat.min_def, Nat.max_def]
    split_ifs <;> omega

theorem c10_search_categories_witness :
    search_categories (fun _ _ => (Except.ok [] : Except Unit (List Category)))
      "x" 500 = Except.ok none :=
  (c10_search_categories (fun _ _ => (Except.ok [] : Except Unit (List Category)))
      "x" 500).1.mpr rfl

end Twitchctl
